import Mathlib

/-!
Shallow embedding of `foam_gen.py` (aluminum foam pore packing).

Real-number values of the Python program are modelled as rationals `ℚ`, so
every operation is executable. The NumPy random generator is modelled as a
stream of unit draws `ℕ → ℚ` (each value meant to lie in `[0, 1)`, as
`np.random.random_sample` guarantees) together with a position; one call to
`np.random.uniform(lo, hi)` consumes one draw `u` and yields `lo + (hi-lo)*u`,
which is exactly NumPy's definition. `np.random.seed(s)` replaces the global
generator by a stream that is a pure function of `s` (the Mersenne twister,
abstracted here as a parameter `seedStream`) positioned at 0.
-/

/-- A pore: the tuple `(x, y, z, radius)` of `foam_gen.py`. -/
structure Pore where
  x : ℚ
  y : ℚ
  z : ℚ
  r : ℚ
deriving DecidableEq, Repr

/-- The state of the (global) NumPy random generator: an abstract stream of
unit draws and the current position in it. -/
structure Gen where
  stream : ℕ → ℚ
  idx : ℕ

/-- `np.random.uniform(lo, hi)`: consume one unit draw `u` and return
`lo + (hi - lo) * u`. -/
def uniform (lo hi : ℚ) (g : Gen) : ℚ × Gen :=
  (lo + (hi - lo) * g.stream g.idx, ⟨g.stream, g.idx + 1⟩)

/-- A stream whose draws all lie in the interval `[0, 1)`, as NumPy's unit
random samples do. -/
def unitStream (f : ℕ → ℚ) : Prop := ∀ k, 0 ≤ f k ∧ f k < 1

/-- Direct reading of `check_overlap` (`foam_gen.py` lines 76-77) over the
reals: `np.sqrt((x2-x1)**2 + (y2-y1)**2 + (z2-z1)**2) < r1 + r2`. -/
def check_overlapR (x1 y1 z1 r1 x2 y2 z2 r2 : ℝ) : Prop :=
  Real.sqrt ((x2 - x1) ^ 2 + (y2 - y1) ^ 2 + (z2 - z1) ^ 2) < r1 + r2

/-- Executable form of `check_overlap`: the square-root comparison
`sqrt d2 < s` is equivalent to `d2 < s^2 ∧ 0 < s` because `d2 ≥ 0`
(lemma `check_overlap_iff_R` below proves the two readings agree). -/
def check_overlap (x1 y1 z1 r1 x2 y2 z2 r2 : ℚ) : Bool :=
  decide ((x2 - x1) ^ 2 + (y2 - y1) ^ 2 + (z2 - z1) ^ 2 < (r1 + r2) ^ 2 ∧ 0 < r1 + r2)

/-- The inner rejection test of `generate_random_pores` (lines 113-118): the
candidate `(x, y, z, r)` overlaps some already-accepted pore. -/
def overlapsAny (x y z r : ℚ) (pores : List Pore) : Bool :=
  pores.any fun p => check_overlap x y z r p.x p.y p.z p.r

/-- The `for attempt in range(max_attempts)` loop of `generate_random_pores`
(lines 106-123): draw `x`, `y`, `z`, `r` in that order, reject while the
candidate overlaps an existing pore, return the first accepted candidate and
the advanced generator, or `none` when the budget is exhausted. -/
def attemptLoop (xr yr zr : ℚ × ℚ) (rmin rmax : ℚ) (pores : List Pore) :
    ℕ → Gen → Option (Pore × Gen)
  | 0, _ => none
  | n + 1, g =>
    let xg := uniform xr.1 xr.2 g
    let yg := uniform yr.1 yr.2 xg.2
    let zg := uniform zr.1 zr.2 yg.2
    let rg := uniform rmin rmax zg.2
    if overlapsAny xg.1 yg.1 zg.1 rg.1 pores then
      attemptLoop xr yr zr rmin rmax pores n rg.2
    else
      some (⟨xg.1, yg.1, zg.1, rg.1⟩, rg.2)

/-- The `for i in range(num_pores)` loop of `generate_random_pores`
(lines 104-127): place pores one at a time, appending each accepted pore;
fail with `none` as soon as one pore cannot be placed. -/
def poreLoop (xr yr zr : ℚ × ℚ) (rmin rmax : ℚ) (maxAtt : ℕ) :
    ℕ → List Pore → Gen → Option (List Pore × Gen)
  | 0, pores, g => some (pores, g)
  | n + 1, pores, g =>
    match attemptLoop xr yr zr rmin rmax pores maxAtt g with
    | none => none
    | some (p, g1) => poreLoop xr yr zr rmin rmax maxAtt n (pores ++ [p]) g1

/-- Lines 99-100: `if seed is not None: np.random.seed(seed)`. Re-seeding
replaces the global generator state `g0` by the stream determined by the
seed, positioned at 0; with no seed the current global state is used. -/
def initGen (seed : Option ℤ) (seedStream : ℤ → ℕ → ℚ) (g0 : Gen) : Gen :=
  match seed with
  | some s => ⟨seedStream s, 0⟩
  | none => g0

/-- `generate_random_pores` (lines 79-129). Returns the pore list, or `none`
on failure. -/
def generate_random_pores (num_pores : ℕ) (x_range y_range z_range : ℚ × ℚ)
    (r_min r_max : ℚ) (max_attempts : ℕ) (seed : Option ℤ)
    (seedStream : ℤ → ℕ → ℚ) (g0 : Gen) : Option (List Pore) :=
  match poreLoop x_range y_range z_range r_min r_max max_attempts num_pores []
      (initGen seed seedStream g0) with
  | none => none
  | some (pores, _) => some pores

/-- Smallest number of decimal digits needed after the point to write `q`
exactly, computed with fuel (enough fuel covers every value a double can
hold, whose denominator is a power of two below `2 ^ 1075`). -/
def decExp (q : ℚ) : ℕ → ℕ
  | 0 => 0
  | n + 1 => if q.den = 1 then 0 else decExp (q * 10) n + 1

/-- Left-pad a digit string with zeros to length `k`. -/
def padZeros (s : String) (k : ℕ) : String :=
  String.mk (List.replicate (k - s.length) '0') ++ s

/-- Python's `str()` of a float holding the exact decimal value `q`: integer
part, a point, then the fractional digits (at least one, so `1` prints as
`"1.0"`), with a leading minus sign for negative values. -/
def floatStr (q : ℚ) : String :=
  let k := decExp q 1200
  let m := (q * 10 ^ k).num.natAbs
  let ip := m / 10 ^ k
  let fp := m % 10 ^ k
  (if q < 0 then "-" else "") ++ toString ip ++ "." ++
    (if k = 0 then "0" else padZeros (toString fp) k)

/-- `make_spherical_pore_string` (lines 37-52): the f-string
`"{num} s {x} {y} {z} {rad}"`. -/
def make_spherical_pore_string (x y z rad : ℚ) (num : ℕ) : String :=
  toString num ++ " s " ++ floatStr x ++ " " ++ floatStr y ++ " " ++
    floatStr z ++ " " ++ floatStr rad

/-- The `enumerate(pores, start=1)` loop of `make_pore_surf_lines`
(lines 141-146), carrying the next identifier `n`. -/
def surfLinesFrom (n : ℕ) : List Pore → List String
  | [] => []
  | p :: ps => make_spherical_pore_string p.x p.y p.z p.r n :: surfLinesFrom (n + 1) ps

/-- `make_pore_surf_lines` (lines 131-146): one surf line per pore,
identifiers starting at 1 in insertion order. -/
def make_pore_surf_lines (pores : List Pore) : List String :=
  surfLinesFrom 1 pores

/-- Euclidean distance between two pore centers, over the reals (spec-side
mathematical notion, used only in theorem statements). -/
noncomputable def centerDist (p q : Pore) : ℝ :=
  Real.sqrt (((q.x - p.x : ℚ) : ℝ) ^ 2 + ((q.y - p.y : ℚ) : ℝ) ^ 2 +
    ((q.z - p.z : ℚ) : ℝ) ^ 2)

/-- Two pores judged non-overlapping by the code's test. -/
def noOv (p q : Pore) : Prop :=
  check_overlap p.x p.y p.z p.r q.x q.y q.z q.r = false

/-- A pore whose center lies in the given per-axis ranges (inclusive) and
whose radius lies in `[rmin, rmax]`. -/
def inRanges (xr yr zr : ℚ × ℚ) (rmin rmax : ℚ) (p : Pore) : Prop :=
  xr.1 ≤ p.x ∧ p.x ≤ xr.2 ∧ yr.1 ≤ p.y ∧ p.y ≤ yr.2 ∧
    zr.1 ≤ p.z ∧ p.z ≤ zr.2 ∧ rmin ≤ p.r ∧ p.r ≤ rmax

/-- Coarse cell index (0, 1 or 2) of a coordinate in `[0, 10]`, splitting the
interval into thirds; used in the infeasibility argument. -/
def cellQ (x : ℚ) : ℕ := min 2 (Int.floor (x * 3 / 10)).toNat

lemma check_overlap_eq_true_iff (x1 y1 z1 r1 x2 y2 z2 r2 : ℚ) :
    check_overlap x1 y1 z1 r1 x2 y2 z2 r2 = true ↔
      (x2 - x1) ^ 2 + (y2 - y1) ^ 2 + (z2 - z1) ^ 2 < (r1 + r2) ^ 2 ∧ 0 < r1 + r2 := by
  simp [check_overlap]

lemma check_overlap_eq_false_iff (x1 y1 z1 r1 x2 y2 z2 r2 : ℚ) :
    check_overlap x1 y1 z1 r1 x2 y2 z2 r2 = false ↔
      ¬((x2 - x1) ^ 2 + (y2 - y1) ^ 2 + (z2 - z1) ^ 2 < (r1 + r2) ^ 2 ∧ 0 < r1 + r2) := by
  simp [check_overlap]

lemma check_overlap_symm (x1 y1 z1 r1 x2 y2 z2 r2 : ℚ) :
    check_overlap x1 y1 z1 r1 x2 y2 z2 r2 = check_overlap x2 y2 z2 r2 x1 y1 z1 r1 := by
  simp only [check_overlap, decide_eq_decide]
  constructor <;> rintro ⟨h1, h2⟩ <;> exact ⟨by nlinarith, by linarith⟩

lemma noOv_symm {p q : Pore} (h : noOv p q) : noOv q p := by
  unfold noOv at h ⊢
  rw [← check_overlap_symm]
  exact h

/-- The executable overlap test agrees with the source's square-root reading
over the reals. -/
lemma check_overlap_iff_R (x1 y1 z1 r1 x2 y2 z2 r2 : ℚ) :
    check_overlap x1 y1 z1 r1 x2 y2 z2 r2 = true ↔
      check_overlapR (x1 : ℝ) (y1 : ℝ) (z1 : ℝ) (r1 : ℝ) (x2 : ℝ) (y2 : ℝ) (z2 : ℝ) (r2 : ℝ) := by
  rw [check_overlap_eq_true_iff, check_overlapR]
  constructor
  · rintro ⟨h1, h2⟩
    have h2' : (0 : ℝ) < (r1 : ℝ) + (r2 : ℝ) := by exact_mod_cast h2
    rw [Real.sqrt_lt' h2']
    exact_mod_cast h1
  · intro h
    have hs : (0 : ℝ) < (r1 : ℝ) + (r2 : ℝ) :=
      lt_of_le_of_lt (Real.sqrt_nonneg _) h
    rw [Real.sqrt_lt' hs] at h
    constructor
    · exact_mod_cast h
    · exact_mod_cast hs

/-- A pair the code judges non-overlapping is at center distance at least the
sum of the radii. -/
lemma dist_ge_of_noOv {p q : Pore} (h : noOv p q) :
    ((p.r : ℝ) + (q.r : ℝ)) ≤ centerDist p q := by
  rw [noOv, check_overlap_eq_false_iff] at h
  rcases le_or_lt (p.r + q.r) 0 with hs | hs
  · refine le_trans ?_ (Real.sqrt_nonneg _)
    exact_mod_cast hs
  · have hd2 : (p.r + q.r) ^ 2 ≤ (q.x - p.x) ^ 2 + (q.y - p.y) ^ 2 + (q.z - p.z) ^ 2 := by
      by_contra hc
      push_neg at hc
      exact h ⟨hc, hs⟩
    apply Real.le_sqrt_of_sq_le
    push_cast
    exact_mod_cast hd2

lemma uniform_mem {lo hi u : ℚ} (hlh : lo ≤ hi) (h0 : 0 ≤ u) (h1 : u < 1) :
    lo ≤ lo + (hi - lo) * u ∧ lo + (hi - lo) * u ≤ hi :=
  ⟨by nlinarith, by nlinarith⟩

/-- One step of the attempt loop, with the four consumed draw positions made
explicit. -/
lemma attemptLoop_succ_eq (xr yr zr : ℚ × ℚ) (rmin rmax : ℚ) (pores : List Pore)
    (n : ℕ) (g : Gen) :
    attemptLoop xr yr zr rmin rmax pores (n + 1) g =
      (if overlapsAny (xr.1 + (xr.2 - xr.1) * g.stream g.idx)
          (yr.1 + (yr.2 - yr.1) * g.stream (g.idx + 1))
          (zr.1 + (zr.2 - zr.1) * g.stream (g.idx + 2))
          (rmin + (rmax - rmin) * g.stream (g.idx + 3)) pores then
        attemptLoop xr yr zr rmin rmax pores n ⟨g.stream, g.idx + 4⟩
      else
        some (⟨xr.1 + (xr.2 - xr.1) * g.stream g.idx,
               yr.1 + (yr.2 - yr.1) * g.stream (g.idx + 1),
               zr.1 + (zr.2 - zr.1) * g.stream (g.idx + 2),
               rmin + (rmax - rmin) * g.stream (g.idx + 3)⟩,
              ⟨g.stream, g.idx + 4⟩)) := rfl

/-- A successful attempt returns a candidate that was tested against every
already-accepted pore, keeps the stream, and advances the position by some
multiple of four bounded by the budget. -/
lemma attemptLoop_some {xr yr zr : ℚ × ℚ} {rmin rmax : ℚ} {pores : List Pore} :
    ∀ {n : ℕ} {g : Gen} {p : Pore} {g' : Gen},
      attemptLoop xr yr zr rmin rmax pores n g = some (p, g') →
      overlapsAny p.x p.y p.z p.r pores = false ∧
        g'.stream = g.stream ∧ g.idx ≤ g'.idx ∧ g'.idx ≤ g.idx + 4 * n
  | 0, g, p, g', h => by simp [attemptLoop] at h
  | n + 1, g, p, g', h => by
    rw [attemptLoop_succ_eq] at h
    split at h
    · obtain ⟨h1, h2, h3, h4⟩ := attemptLoop_some h
      have h2' : g'.stream = g.stream := h2
      have h3' : g.idx + 4 ≤ g'.idx := h3
      have h4' : g'.idx ≤ g.idx + 4 + 4 * n := h4
      exact ⟨h1, h2', by omega, by omega⟩
    · rename_i hov
      obtain ⟨hp, hg⟩ := Prod.mk.injEq .. ▸ Option.some.injEq .. ▸ h
      subst hp
      have hg' : g' = (⟨g.stream, g.idx + 4⟩ : Gen) := hg.symm
      subst hg'
      exact ⟨by simpa using hov, rfl, (by omega : g.idx ≤ g.idx + 4),
        (by omega : g.idx + 4 ≤ g.idx + 4 * (n + 1))⟩

/-- A successful attempt under a valid box, valid radius range, and unit
draws returns a pore inside the ranges. -/
lemma attemptLoop_some_inRanges {xr yr zr : ℚ × ℚ} {rmin rmax : ℚ} {pores : List Pore}
    (hx : xr.1 ≤ xr.2) (hy : yr.1 ≤ yr.2) (hz : zr.1 ≤ zr.2) (hr : rmin ≤ rmax) :
    ∀ {n : ℕ} {g : Gen} {p : Pore} {g' : Gen}, unitStream g.stream →
      attemptLoop xr yr zr rmin rmax pores n g = some (p, g') →
      inRanges xr yr zr rmin rmax p
  | 0, g, p, g', _, h => by simp [attemptLoop] at h
  | n + 1, g, p, g', hu, h => by
    rw [attemptLoop_succ_eq] at h
    split at h
    · refine attemptLoop_some_inRanges hx hy hz hr ?_ h
      exact hu
    · obtain ⟨hp, _⟩ := Prod.mk.injEq .. ▸ Option.some.injEq .. ▸ h
      subst hp
      refine ⟨(uniform_mem hx (hu _).1 (hu _).2).1, (uniform_mem hx (hu _).1 (hu _).2).2,
        (uniform_mem hy (hu _).1 (hu _).2).1, (uniform_mem hy (hu _).1 (hu _).2).2,
        (uniform_mem hz (hu _).1 (hu _).2).1, (uniform_mem hz (hu _).1 (hu _).2).2,
        (uniform_mem hr (hu _).1 (hu _).2).1, (uniform_mem hr (hu _).1 (hu _).2).2⟩

lemma overlapsAny_eq_false_iff (x y z r : ℚ) (pores : List Pore) :
    overlapsAny x y z r pores = false ↔
      ∀ p ∈ pores, check_overlap x y z r p.x p.y p.z p.r = false := by
  simp [overlapsAny]

/-- A successful packing loop run returns exactly the accumulated pores plus
one pore per remaining iteration. -/
lemma poreLoop_some_length {xr yr zr : ℚ × ℚ} {rmin rmax : ℚ} {M : ℕ} :
    ∀ {N : ℕ} {acc : List Pore} {g : Gen} {l : List Pore} {g' : Gen},
      poreLoop xr yr zr rmin rmax M N acc g = some (l, g') →
      l.length = acc.length + N
  | 0, acc, g, l, g', h => by
    simp only [poreLoop, Option.some.injEq, Prod.mk.injEq] at h
    rw [← h.1]
    simp
  | N + 1, acc, g, l, g', h => by
    simp only [poreLoop] at h
    rcases he : attemptLoop xr yr zr rmin rmax acc M g with _ | ⟨p, g1⟩ <;> rw [he] at h
    · exact absurd h (by simp)
    · have := poreLoop_some_length h
      simp at this
      omega

/-- Every pore in a successful packing loop result lies inside the ranges,
provided the accumulated pores already do, the ranges are valid, and the
stream draws are unit draws. -/
lemma poreLoop_some_inRanges {xr yr zr : ℚ × ℚ} {rmin rmax : ℚ} {M : ℕ}
    (hx : xr.1 ≤ xr.2) (hy : yr.1 ≤ yr.2) (hz : zr.1 ≤ zr.2) (hr : rmin ≤ rmax) :
    ∀ {N : ℕ} {acc : List Pore} {g : Gen} {l : List Pore} {g' : Gen},
      unitStream g.stream → (∀ p ∈ acc, inRanges xr yr zr rmin rmax p) →
      poreLoop xr yr zr rmin rmax M N acc g = some (l, g') →
      ∀ p ∈ l, inRanges xr yr zr rmin rmax p
  | 0, acc, g, l, g', _, hacc, h => by
    simp only [poreLoop, Option.some.injEq, Prod.mk.injEq] at h
    rw [← h.1]
    exact hacc
  | N + 1, acc, g, l, g', hu, hacc, h => by
    simp only [poreLoop] at h
    rcases he : attemptLoop xr yr zr rmin rmax acc M g with _ | ⟨p, g1⟩ <;> rw [he] at h
    · exact absurd h (by simp)
    · obtain ⟨_, hstream, _, _⟩ := attemptLoop_some he
      refine poreLoop_some_inRanges hx hy hz hr ?_ ?_ h
      · rw [hstream]; exact hu
      · intro q hq
        rcases List.mem_append.mp hq with hq | hq
        · exact hacc q hq
        · rw [List.mem_singleton.mp hq]
          exact attemptLoop_some_inRanges hx hy hz hr hu he

/-- A successful packing loop run preserves pairwise non-overlap: each
accepted candidate is tested against every pore already in the list. -/
lemma poreLoop_some_pairwise {xr yr zr : ℚ × ℚ} {rmin rmax : ℚ} {M : ℕ} :
    ∀ {N : ℕ} {acc : List Pore} {g : Gen} {l : List Pore} {g' : Gen},
      acc.Pairwise noOv →
      poreLoop xr yr zr rmin rmax M N acc g = some (l, g') →
      l.Pairwise noOv
  | 0, acc, g, l, g', hacc, h => by
    simp only [poreLoop, Option.some.injEq, Prod.mk.injEq] at h
    rw [← h.1]
    exact hacc
  | N + 1, acc, g, l, g', hacc, h => by
    simp only [poreLoop] at h
    rcases he : attemptLoop xr yr zr rmin rmax acc M g with _ | ⟨p, g1⟩ <;> rw [he] at h
    · exact absurd h (by simp)
    · obtain ⟨hov, _, _, _⟩ := attemptLoop_some he
      refine poreLoop_some_pairwise ?_ h
      refine List.pairwise_append.mpr ⟨hacc, List.pairwise_singleton .., ?_⟩
      intro a ha b hb
      rw [List.mem_singleton.mp hb]
      exact noOv_symm ((overlapsAny_eq_false_iff _ _ _ _ _).mp hov a ha)

/-- A successful `generate_random_pores` call is exactly a successful run of
the placement loop from an empty list and the (possibly re-seeded) generator. -/
lemma generate_some_iff {num_pores : ℕ} {xr yr zr : ℚ × ℚ} {rmin rmax : ℚ}
    {M : ℕ} {seed : Option ℤ} {ss : ℤ → ℕ → ℚ} {g0 : Gen} {l : List Pore} :
    generate_random_pores num_pores xr yr zr rmin rmax M seed ss g0 = some l ↔
      ∃ g', poreLoop xr yr zr rmin rmax M num_pores [] (initGen seed ss g0) =
        some (l, g') := by
  unfold generate_random_pores
  rcases h : poreLoop xr yr zr rmin rmax M num_pores [] (initGen seed ss g0) with _ | ⟨l', g'⟩
  · simp
  · simp only [Option.some.injEq]
    constructor
    · rintro rfl
      exact ⟨g', rfl⟩
    · rintro ⟨g'', h''⟩
      simp only [Option.some.injEq, Prod.mk.injEq] at h''
      exact h''.left

lemma pairwise_noOv_getElem {l : List Pore} (hp : l.Pairwise noOv) {i j : ℕ} {p q : Pore}
    (hij : i ≠ j) (hi : l[i]? = some p) (hj : l[j]? = some q) : noOv p q := by
  obtain ⟨hi', hpi⟩ := List.getElem?_eq_some_iff.mp hi
  obtain ⟨hj', hqj⟩ := List.getElem?_eq_some_iff.mp hj
  rcases Nat.lt_or_ge i j with hlt | hge
  · have := List.pairwise_iff_get.mp hp ⟨i, hi'⟩ ⟨j, hj'⟩ hlt
    simpa [List.get_eq_getElem, hpi, hqj] using this
  · have hlt : j < i := by omega
    have := List.pairwise_iff_get.mp hp ⟨j, hj'⟩ ⟨i, hi'⟩ hlt
    exact noOv_symm (by simpa [List.get_eq_getElem, hpi, hqj] using this)

/-- Claim C1: in every successful result of `generate_random_pores`, any two
pores at distinct positions have center distance at least the sum of their
radii (no two accepted spheres overlap). -/
theorem C1_result_no_overlap (num_pores : ℕ) (xr yr zr : ℚ × ℚ) (rmin rmax : ℚ)
    (M : ℕ) (seed : Option ℤ) (ss : ℤ → ℕ → ℚ) (g0 : Gen) (l : List Pore)
    (h : generate_random_pores num_pores xr yr zr rmin rmax M seed ss g0 = some l)
    (i j : ℕ) (p q : Pore) (hij : i ≠ j) (hi : l[i]? = some p) (hj : l[j]? = some q) :
    ((p.r : ℝ) + (q.r : ℝ)) ≤ centerDist p q := by
  obtain ⟨g', hrun⟩ := generate_some_iff.mp h
  have hpw : l.Pairwise noOv := poreLoop_some_pairwise (List.Pairwise.nil) hrun
  exact dist_ge_of_noOv (pairwise_noOv_getElem hpw hij hi hj)

theorem C1_result_no_overlap_witness :
    generate_random_pores 2 (0, 10) (0, 10) (0, 10) 1 1 5 (some 0)
        (fun _ k => if k < 4 then 0 else 1/2) ⟨fun _ => 0, 0⟩ =
      some [⟨0, 0, 0, 1⟩, ⟨5, 5, 5, 1⟩] ∧
    ((1 : ℚ) : ℝ) + ((1 : ℚ) : ℝ) ≤ centerDist ⟨0, 0, 0, 1⟩ ⟨5, 5, 5, 1⟩ := by
  have h : generate_random_pores 2 (0, 10) (0, 10) (0, 10) 1 1 5 (some 0)
      (fun _ k => if k < 4 then 0 else 1/2) ⟨fun _ => 0, 0⟩ =
      some [⟨0, 0, 0, 1⟩, ⟨5, 5, 5, 1⟩] := by
    norm_num [generate_random_pores, initGen, poreLoop, attemptLoop, uniform,
      overlapsAny, check_overlap]
  exact ⟨h, C1_result_no_overlap 2 (0, 10) (0, 10) (0, 10) 1 1 5 (some 0)
    (fun _ k => if k < 4 then 0 else 1/2) ⟨fun _ => 0, 0⟩ _ h 0 1 _ _
    (by decide) rfl rfl⟩

/-- Claim C2: `check_overlap` returns `true` exactly when the Euclidean
distance between the centers is strictly less than the sum of the radii; in
particular touching spheres (centers `(0,0,0)` and `(2,0,0)`, radii 1) are
judged non-overlapping while centers `(0,0,0)` and `(1,0,0)` with radii 1 are
judged overlapping. -/
theorem C2_overlap_iff_dist :
    (∀ x1 y1 z1 r1 x2 y2 z2 r2 : ℚ,
      (check_overlap x1 y1 z1 r1 x2 y2 z2 r2 = true ↔
        check_overlapR (x1 : ℝ) (y1 : ℝ) (z1 : ℝ) (r1 : ℝ)
          (x2 : ℝ) (y2 : ℝ) (z2 : ℝ) (r2 : ℝ))) ∧
    check_overlap 0 0 0 1 2 0 0 1 = false ∧
    check_overlap 0 0 0 1 1 0 0 1 = true := by
  refine ⟨check_overlap_iff_R, ?_, ?_⟩ <;> norm_num [check_overlap]

/-- Claim C3: a successful result has length exactly `num_pores`; requesting
zero pores always succeeds with the empty list, and the placement loop for
zero pores returns the generator unchanged (no random draw is consumed). -/
theorem C3_count_invariant :
    (∀ (num_pores : ℕ) (xr yr zr : ℚ × ℚ) (rmin rmax : ℚ) (M : ℕ)
        (seed : Option ℤ) (ss : ℤ → ℕ → ℚ) (g0 : Gen) (l : List Pore),
      generate_random_pores num_pores xr yr zr rmin rmax M seed ss g0 = some l →
      l.length = num_pores) ∧
    (∀ (xr yr zr : ℚ × ℚ) (rmin rmax : ℚ) (M : ℕ) (seed : Option ℤ)
        (ss : ℤ → ℕ → ℚ) (g0 : Gen),
      generate_random_pores 0 xr yr zr rmin rmax M seed ss g0 = some [] ∧
      ∀ g : Gen, poreLoop xr yr zr rmin rmax M 0 [] g = some ([], g)) := by
  constructor
  · intro num_pores xr yr zr rmin rmax M seed ss g0 l h
    obtain ⟨g', hrun⟩ := generate_some_iff.mp h
    simpa using poreLoop_some_length hrun
  · intro xr yr zr rmin rmax M seed ss g0
    exact ⟨rfl, fun g => rfl⟩

theorem C3_count_invariant_witness : ([⟨0, 0, 0, 0⟩] : List Pore).length = 1 :=
  C3_count_invariant.1 1 (0, 1) (0, 1) (0, 1) 0 1 5 (some 0) (fun _ _ => 0)
    ⟨fun _ => 0, 0⟩ [⟨0, 0, 0, 0⟩]
    (by norm_num [generate_random_pores, initGen, poreLoop, attemptLoop, uniform,
      overlapsAny, check_overlap])

/-- Claim C4: the result is all-or-nothing — either the failure sentinel
`none`, or a complete list of exactly `num_pores` pores; never a partial
list. -/
theorem C4_all_or_nothing (num_pores : ℕ) (xr yr zr : ℚ × ℚ) (rmin rmax : ℚ)
    (M : ℕ) (seed : Option ℤ) (ss : ℤ → ℕ → ℚ) (g0 : Gen) :
    generate_random_pores num_pores xr yr zr rmin rmax M seed ss g0 = none ∨
    ∃ l, generate_random_pores num_pores xr yr zr rmin rmax M seed ss g0 = some l ∧
      l.length = num_pores := by
  rcases h : generate_random_pores num_pores xr yr zr rmin rmax M seed ss g0 with _ | l
  · exact Or.inl rfl
  · refine Or.inr ⟨l, rfl, ?_⟩
    obtain ⟨g', hrun⟩ := generate_some_iff.mp h
    simpa using poreLoop_some_length hrun

/-- Claim C5: with a seed supplied, the result of `generate_random_pores` is
independent of the global generator state before the call — re-seeding makes
the run a pure function of the arguments, so two calls with identical
arguments return identical results. -/
theorem C5_seed_determinism (num_pores : ℕ) (xr yr zr : ℚ × ℚ) (rmin rmax : ℚ)
    (M : ℕ) (s : ℤ) (ss : ℤ → ℕ → ℚ) (g0 g0' : Gen) :
    generate_random_pores num_pores xr yr zr rmin rmax M (some s) ss g0 =
    generate_random_pores num_pores xr yr zr rmin rmax M (some s) ss g0' := rfl

/-- Claim C6: in every successful result under a valid box and radius range,
with unit random draws, every pore center lies within the per-axis ranges
(inclusive) and every radius lies within `[r_min, r_max]`. -/
theorem C6_containment (num_pores : ℕ) (xr yr zr : ℚ × ℚ) (rmin rmax : ℚ)
    (M : ℕ) (seed : Option ℤ) (ss : ℤ → ℕ → ℚ) (g0 : Gen) (l : List Pore)
    (hx : xr.1 ≤ xr.2) (hy : yr.1 ≤ yr.2) (hz : zr.1 ≤ zr.2) (hr : rmin ≤ rmax)
    (hu : unitStream (initGen seed ss g0).stream)
    (h : generate_random_pores num_pores xr yr zr rmin rmax M seed ss g0 = some l) :
    ∀ p ∈ l, inRanges xr yr zr rmin rmax p := by
  obtain ⟨g', hrun⟩ := generate_some_iff.mp h
  exact poreLoop_some_inRanges hx hy hz hr hu (by simp) hrun

theorem C6_containment_witness :
    inRanges (0, 10) (0, 10) (0, 10) (1/2) 1 ⟨5, 5, 5, 3/4⟩ := by
  have h : generate_random_pores 1 (0, 10) (0, 10) (0, 10) (1/2) 1 5 (some 0)
      (fun _ _ => 1/2) ⟨fun _ => 0, 0⟩ = some [⟨5, 5, 5, 3/4⟩] := by
    norm_num [generate_random_pores, initGen, poreLoop, attemptLoop, uniform,
      overlapsAny, check_overlap]
  exact C6_containment 1 (0, 10) (0, 10) (0, 10) (1/2) 1 5 (some 0)
    (fun _ _ => 1/2) ⟨fun _ => 0, 0⟩ [⟨5, 5, 5, 3/4⟩] (by norm_num) (by norm_num)
    (by norm_num) (by norm_num) (fun k => by norm_num [initGen]) h
    ⟨5, 5, 5, 3/4⟩ (List.mem_singleton.mpr rfl)

lemma surfLinesFrom_length (n : ℕ) : ∀ ps : List Pore,
    (surfLinesFrom n ps).length = ps.length
  | [] => rfl
  | p :: ps => by
    simp only [surfLinesFrom, List.length_cons]
    rw [surfLinesFrom_length (n + 1) ps]

lemma surfLinesFrom_getElem? : ∀ (ps : List Pore) (n i : ℕ) (p : Pore),
    ps[i]? = some p →
    (surfLinesFrom n ps)[i]? = some (make_spherical_pore_string p.x p.y p.z p.r (n + i))
  | [], n, i, p, h => by simp at h
  | q :: ps, n, 0, p, h => by
    simp only [List.getElem?_cons_zero, Option.some.injEq] at h
    subst h
    simp [surfLinesFrom]
  | q :: ps, n, i + 1, p, h => by
    simp only [List.getElem?_cons_succ] at h
    have := surfLinesFrom_getElem? ps (n + 1) i p h
    simpa [surfLinesFrom, Nat.add_assoc, Nat.add_comm 1 i] using this

/-- Claim C7: `make_pore_surf_lines` yields one line per pore; the line at
0-based position `i` is the surf string for that pore with the 1-based
identifier `i + 1` (insertion order); and the pore `(1.0, 2.0, 3.0, 0.5)` at
position 1 yields the literal text `"1 s 1.0 2.0 3.0 0.5"`. -/
theorem C7_surf_lines :
    (∀ ps : List Pore, (make_pore_surf_lines ps).length = ps.length) ∧
    (∀ (ps : List Pore) (i : ℕ) (p : Pore), ps[i]? = some p →
      (make_pore_surf_lines ps)[i]? =
        some (make_spherical_pore_string p.x p.y p.z p.r (i + 1))) ∧
    make_pore_surf_lines [⟨1, 2, 3, 1/2⟩] = ["1 s 1.0 2.0 3.0 0.5"] := by
  refine ⟨fun ps => surfLinesFrom_length 1 ps, ?_, ?_⟩
  · intro ps i p h
    simpa [make_pore_surf_lines, Nat.add_comm 1 i] using
      surfLinesFrom_getElem? ps 1 i p h
  · have h : decExp (1/2) 1200 = 1 := by
      rw [show (1200 : ℕ) = 1199 + 1 from rfl, decExp]
      norm_num
      rw [show (1199 : ℕ) = 1198 + 1 from rfl, decExp]
      norm_num
    have h1 : decExp 1 1200 = 0 := by
      rw [show (1200 : ℕ) = 1199 + 1 from rfl, decExp]; norm_num
    have h2 : decExp 2 1200 = 0 := by
      rw [show (1200 : ℕ) = 1199 + 1 from rfl, decExp]; norm_num
    have h3 : decExp 3 1200 = 0 := by
      rw [show (1200 : ℕ) = 1199 + 1 from rfl, decExp]; norm_num
    norm_num [make_pore_surf_lines, surfLinesFrom, make_spherical_pore_string,
      floatStr, h, h1, h2, h3, padZeros]
    decide

theorem C7_surf_lines_witness :
    (make_pore_surf_lines [⟨1, 2, 3, 1/2⟩])[0]? =
      some (make_spherical_pore_string 1 2 3 (1/2) 1) :=
  C7_surf_lines.2.1 [⟨1, 2, 3, 1/2⟩] 0 ⟨1, 2, 3, 1/2⟩ rfl

/-- Claim C10: with a zero retry budget and at least one requested pore, the
call fails with `none` for every box, radius range, seed and stream — no
random draw can ever be accepted. -/
theorem C10_zero_budget_fails (num_pores : ℕ) (xr yr zr : ℚ × ℚ)
    (rmin rmax : ℚ) (seed : Option ℤ) (ss : ℤ → ℕ → ℚ) (g0 : Gen)
    (h : 1 ≤ num_pores) :
    generate_random_pores num_pores xr yr zr rmin rmax 0 seed ss g0 = none := by
  obtain ⟨m, rfl⟩ : ∃ m, num_pores = m + 1 := ⟨num_pores - 1, by omega⟩
  unfold generate_random_pores
  simp [poreLoop, attemptLoop]

theorem C10_zero_budget_fails_witness :
    generate_random_pores 1 (0, 1) (0, 1) (0, 1) 0 1 0 none (fun _ _ => 0)
      ⟨fun _ => 0, 0⟩ = none :=
  C10_zero_budget_fails 1 (0, 1) (0, 1) (0, 1) 0 1 none (fun _ _ => 0)
    ⟨fun _ => 0, 0⟩ (by norm_num)

lemma poreLoop_succ_of_none {xr yr zr : ℚ × ℚ} {rmin rmax : ℚ} {M N : ℕ}
    {acc : List Pore} {g : Gen}
    (h : attemptLoop xr yr zr rmin rmax acc M g = none) :
    poreLoop xr yr zr rmin rmax M (N + 1) acc g = none := by
  simp only [poreLoop, h]

lemma poreLoop_succ_of_some {xr yr zr : ℚ × ℚ} {rmin rmax : ℚ} {M N : ℕ}
    {acc : List Pore} {g : Gen} {p : Pore} {g1 : Gen}
    (h : attemptLoop xr yr zr rmin rmax acc M g = some (p, g1)) :
    poreLoop xr yr zr rmin rmax M (N + 1) acc g =
      poreLoop xr yr zr rmin rmax M N (acc ++ [p]) g1 := by
  simp only [poreLoop, h]

/-- Two generator states at the same position whose streams agree on the
window the attempt loop can read produce the same attempt outcome. -/
lemma attemptLoop_agree (xr yr zr : ℚ × ℚ) (rmin rmax : ℚ) (pores : List Pore) :
    ∀ (n : ℕ) (g1 g2 : Gen), g1.idx = g2.idx →
      (∀ k, g1.idx ≤ k → k < g1.idx + 4 * n → g1.stream k = g2.stream k) →
      (attemptLoop xr yr zr rmin rmax pores n g1 = none ∧
        attemptLoop xr yr zr rmin rmax pores n g2 = none) ∨
      (∃ p i, attemptLoop xr yr zr rmin rmax pores n g1 = some (p, ⟨g1.stream, i⟩) ∧
        attemptLoop xr yr zr rmin rmax pores n g2 = some (p, ⟨g2.stream, i⟩) ∧
        g1.idx ≤ i ∧ i ≤ g1.idx + 4 * n)
  | 0, g1, g2, _, _ => Or.inl ⟨rfl, rfl⟩
  | n + 1, g1, g2, hidx, hag => by
    have e0 : g2.stream g2.idx = g1.stream g1.idx := by
      rw [← hidx]; exact (hag g1.idx le_rfl (by omega)).symm
    have e1 : g2.stream (g2.idx + 1) = g1.stream (g1.idx + 1) := by
      rw [← hidx]; exact (hag _ (by omega) (by omega)).symm
    have e2 : g2.stream (g2.idx + 2) = g1.stream (g1.idx + 2) := by
      rw [← hidx]; exact (hag _ (by omega) (by omega)).symm
    have e3 : g2.stream (g2.idx + 3) = g1.stream (g1.idx + 3) := by
      rw [← hidx]; exact (hag _ (by omega) (by omega)).symm
    rw [attemptLoop_succ_eq, attemptLoop_succ_eq, e0, e1, e2, e3, ← hidx]
    split
    · have hrec := attemptLoop_agree xr yr zr rmin rmax pores n
        ⟨g1.stream, g1.idx + 4⟩ ⟨g2.stream, g1.idx + 4⟩
        rfl (fun k hk1 hk2 => by
          have hk1' : g1.idx + 4 ≤ k := hk1
          have hk2' : k < g1.idx + 4 + 4 * n := hk2
          exact hag k (by omega) (by omega))
      rcases hrec with ⟨h1, h2⟩ | ⟨p, i, h1, h2, hi1, hi2⟩
      · exact Or.inl ⟨h1, h2⟩
      · have hi1' : g1.idx + 4 ≤ i := hi1
        have hi2' : i ≤ g1.idx + 4 + 4 * n := hi2
        exact Or.inr ⟨p, i, h1, h2, by omega, by omega⟩
    · exact Or.inr ⟨_, g1.idx + 4, rfl, rfl, by omega, by omega⟩

/-- Two generator states at the same position whose streams agree on the
window of at most `4 * M * N` values the packing loop can read produce the
same packing outcome. -/
lemma poreLoop_agree (xr yr zr : ℚ × ℚ) (rmin rmax : ℚ) (M : ℕ) :
    ∀ (N : ℕ) (acc : List Pore) (g1 g2 : Gen), g1.idx = g2.idx →
      (∀ k, g1.idx ≤ k → k < g1.idx + 4 * M * N → g1.stream k = g2.stream k) →
      (poreLoop xr yr zr rmin rmax M N acc g1 = none ∧
        poreLoop xr yr zr rmin rmax M N acc g2 = none) ∨
      (∃ l i, poreLoop xr yr zr rmin rmax M N acc g1 = some (l, ⟨g1.stream, i⟩) ∧
        poreLoop xr yr zr rmin rmax M N acc g2 = some (l, ⟨g2.stream, i⟩))
  | 0, acc, g1, g2, hidx, _ => by
    refine Or.inr ⟨acc, g1.idx, rfl, ?_⟩
    exact (congrArg (fun t => some (acc, (⟨g2.stream, t⟩ : Gen))) hidx).symm
  | N + 1, acc, g1, g2, hidx, hag => by
    have hbound : 4 * M ≤ 4 * M * (N + 1) := Nat.le_mul_of_pos_right (4 * M) (Nat.succ_pos N)
    rcases attemptLoop_agree xr yr zr rmin rmax acc M g1 g2 hidx
        (fun k hk1 hk2 => hag k hk1 (by omega)) with ⟨h1, h2⟩ | ⟨p, i, h1, h2, hi1, hi2⟩
    · exact Or.inl ⟨poreLoop_succ_of_none h1, poreLoop_succ_of_none h2⟩
    · have hstep : 4 * M * (N + 1) = 4 * M + 4 * M * N := by ring
      have hrec := poreLoop_agree xr yr zr rmin rmax M N (acc ++ [p])
        ⟨g1.stream, i⟩ ⟨g2.stream, i⟩ rfl
        (fun k hk1 hk2 => by
          have hk1' : i ≤ k := hk1
          have hk2' : k < i + 4 * M * N := hk2
          refine hag k (by omega) ?_
          have : i + 4 * M * N ≤ g1.idx + 4 * M + 4 * M * N :=
            Nat.add_le_add_right hi2 (4 * M * N)
          omega)
      rw [poreLoop_succ_of_some h1, poreLoop_succ_of_some h2]
      rcases hrec with ⟨ha, hb⟩ | ⟨l, i', ha, hb⟩
      · exact Or.inl ⟨ha, hb⟩
      · exact Or.inr ⟨l, i', ha, hb⟩

/-- Claim C8: `generate_random_pores` is a total function of its arguments
(it always terminates in this embedding) and its result depends on at most
`num_pores * max_attempts` candidate draws — 4 unit draws each: two seeded
runs whose draw streams agree on the first `4 * (num_pores * max_attempts)`
values return the same result. -/
theorem C8_bounded_draws (num_pores : ℕ) (xr yr zr : ℚ × ℚ) (rmin rmax : ℚ)
    (M : ℕ) (s : ℤ) (ss1 ss2 : ℤ → ℕ → ℚ) (g01 g02 : Gen)
    (hag : ∀ k, k < 4 * (num_pores * M) → ss1 s k = ss2 s k) :
    generate_random_pores num_pores xr yr zr rmin rmax M (some s) ss1 g01 =
    generate_random_pores num_pores xr yr zr rmin rmax M (some s) ss2 g02 := by
  have hrun := poreLoop_agree xr yr zr rmin rmax M num_pores []
    ⟨ss1 s, 0⟩ ⟨ss2 s, 0⟩ rfl (fun k hk1 hk2 => by
      refine hag k ?_
      have hk2' : k < 0 + 4 * M * num_pores := hk2
      have : 4 * M * num_pores = 4 * (num_pores * M) := by ring
      omega)
  unfold generate_random_pores initGen
  rcases hrun with ⟨h1, h2⟩ | ⟨l, i, h1, h2⟩
  · rw [h1, h2]
  · rw [h1, h2]

theorem C8_bounded_draws_witness :
    generate_random_pores 1 (0, 1) (0, 1) (0, 1) 0 1 1 (some 0)
        (fun _ k => if k < 4 then 0 else 1) ⟨fun _ => 0, 0⟩ =
    generate_random_pores 1 (0, 1) (0, 1) (0, 1) 0 1 1 (some 0)
        (fun _ _ => 0) ⟨fun _ => 0, 0⟩ :=
  C8_bounded_draws 1 (0, 1) (0, 1) (0, 1) 0 1 1 0
    (fun _ k => if k < 4 then 0 else 1) (fun _ _ => 0) ⟨fun _ => 0, 0⟩ ⟨fun _ => 0, 0⟩
    (fun k hk => by
      have hk4 : k < 4 := by simpa using hk
      simp [hk4])

lemma cellQ_lt_three (x : ℚ) : cellQ x < 3 :=
  lt_of_le_of_lt (min_le_left _ _) (by norm_num)

lemma cellQ_bounds (x : ℚ) (h0 : 0 ≤ x) (h1 : x ≤ 10) :
    (10 * (cellQ x : ℚ)) / 3 ≤ x ∧ x ≤ (10 * ((cellQ x : ℚ) + 1)) / 3 := by
  unfold cellQ
  have ht0 : (0 : ℤ) ≤ Int.floor (x * 3 / 10) := Int.floor_nonneg.mpr (by positivity)
  have htle : ((Int.floor (x * 3 / 10) : ℤ) : ℚ) ≤ x * 3 / 10 := Int.floor_le _
  have htlt : x * 3 / 10 < (Int.floor (x * 3 / 10) : ℚ) + 1 := Int.lt_floor_add_one _
  rcases le_or_lt (Int.floor (x * 3 / 10)).toNat 2 with hc | hc
  · rw [min_eq_right hc]
    have htn : (((Int.floor (x * 3 / 10)).toNat : ℕ) : ℚ) =
        ((Int.floor (x * 3 / 10) : ℤ) : ℚ) := by
      exact_mod_cast congrArg (fun t : ℤ => (t : ℚ)) (Int.toNat_of_nonneg ht0)
    rw [htn]
    constructor
    · linarith
    · linarith
  · rw [min_eq_left (by omega)]
    have h2t : (2 : ℤ) ≤ Int.floor (x * 3 / 10) := by omega
    have h2q : (2 : ℚ) ≤ ((Int.floor (x * 3 / 10) : ℤ) : ℚ) := by exact_mod_cast h2t
    have h2x : (2 : ℚ) ≤ x * 3 / 10 := le_trans h2q htle
    constructor
    · push_cast
      linarith
    · push_cast
      linarith

lemma cellQ_close (a b : ℚ) (ha0 : 0 ≤ a) (ha1 : a ≤ 10) (hb0 : 0 ≤ b) (hb1 : b ≤ 10)
    (h : cellQ a = cellQ b) : (a - b) ^ 2 ≤ 100 / 9 := by
  obtain ⟨hA1, hA2⟩ := cellQ_bounds a ha0 ha1
  obtain ⟨hB1, hB2⟩ := cellQ_bounds b hb0 hb1
  rw [h] at hA1 hA2
  have hd1 : a - b ≤ 10 / 3 := by linarith
  have hd2 : -(10 / 3) ≤ a - b := by linarith
  nlinarith [hd1, hd2]

/-- Claim C9: requesting 100 spheres with radii drawn from `[4, 5]` inside
the box `(0,10)×(0,10)×(0,10)` with retry budget 10 returns the failure
sentinel for every seed and every unit draw stream — 100 centers with
pairwise distance at least 8 cannot fit in that box. -/
theorem C9_infeasible_packing (seed : Option ℤ) (ss : ℤ → ℕ → ℚ) (g0 : Gen)
    (hu : unitStream (initGen seed ss g0).stream) :
    generate_random_pores 100 (0, 10) (0, 10) (0, 10) 4 5 10 seed ss g0 = none := by
  rcases h : generate_random_pores 100 (0, 10) (0, 10) (0, 10) 4 5 10 seed ss g0 with _ | l
  · rfl
  · exfalso
    obtain ⟨g', hrun⟩ := generate_some_iff.mp h
    have hlen : l.length = 100 := by simpa using poreLoop_some_length hrun
    have hin : ∀ p ∈ l, inRanges (0, 10) (0, 10) (0, 10) 4 5 p :=
      poreLoop_some_inRanges (by norm_num) (by norm_num) (by norm_num) (by norm_num)
        hu (by simp) hrun
    have hpw : l.Pairwise noOv := poreLoop_some_pairwise List.Pairwise.nil hrun
    obtain ⟨i, j, hij, hfij⟩ := Fintype.exists_ne_map_eq_of_card_lt
      (fun i : Fin 100 =>
        ((⟨cellQ (l.get (Fin.cast hlen.symm i)).x, cellQ_lt_three _⟩ : Fin 3),
         (⟨cellQ (l.get (Fin.cast hlen.symm i)).y, cellQ_lt_three _⟩ : Fin 3),
         (⟨cellQ (l.get (Fin.cast hlen.symm i)).z, cellQ_lt_three _⟩ : Fin 3)))
      (by simp)
    set p := l.get (Fin.cast hlen.symm i) with hp
    set q := l.get (Fin.cast hlen.symm j) with hq
    have hcx : cellQ p.x = cellQ q.x := by
      have := congrArg (fun t : Fin 3 × Fin 3 × Fin 3 => t.1.val) hfij
      simpa [hp, hq] using this
    have hcy : cellQ p.y = cellQ q.y := by
      have := congrArg (fun t : Fin 3 × Fin 3 × Fin 3 => t.2.1.val) hfij
      simpa [hp, hq] using this
    have hcz : cellQ p.z = cellQ q.z := by
      have := congrArg (fun t : Fin 3 × Fin 3 × Fin 3 => t.2.2.val) hfij
      simpa [hp, hq] using this
    have hiv : ((i : ℕ)) < l.length := by rw [hlen]; exact i.isLt
    have hjv : ((j : ℕ)) < l.length := by rw [hlen]; exact j.isLt
    have hgi : l[(i : ℕ)]? = some p := by
      rw [List.getElem?_eq_getElem hiv]
      simp [hp, List.get_eq_getElem, Fin.coe_cast]
    have hgj : l[(j : ℕ)]? = some q := by
      rw [List.getElem?_eq_getElem hjv]
      simp [hq, List.get_eq_getElem, Fin.coe_cast]
    have hnov : noOv p q :=
      pairwise_noOv_getElem hpw (fun hv => hij (Fin.val_inj.mp hv)) hgi hgj
    obtain ⟨hpx1, hpx2, hpy1, hpy2, hpz1, hpz2, hpr1, hpr2⟩ :=
      hin p (List.get_mem l _ _)
    obtain ⟨hqx1, hqx2, hqy1, hqy2, hqz1, hqz2, hqr1, hqr2⟩ :=
      hin q (List.get_mem l _ _)
    rw [noOv, check_overlap_eq_false_iff] at hnov
    have hs : (0 : ℚ) < p.r + q.r := by linarith
    have hd2 : (p.r + q.r) ^ 2 ≤
        (q.x - p.x) ^ 2 + (q.y - p.y) ^ 2 + (q.z - p.z) ^ 2 := by
      by_contra hc
      push_neg at hc
      exact hnov ⟨hc, hs⟩
    have c1 : (p.x - q.x) ^ 2 ≤ 100 / 9 := cellQ_close p.x q.x hpx1 hpx2 hqx1 hqx2 hcx
    have c2 : (p.y - q.y) ^ 2 ≤ 100 / 9 := cellQ_close p.y q.y hpy1 hpy2 hqy1 hqy2 hcy
    have c3 : (p.z - q.z) ^ 2 ≤ 100 / 9 := cellQ_close p.z q.z hpz1 hpz2 hqz1 hqz2 hcz
    have hrr : (8 : ℚ) ≤ p.r + q.r := by linarith
    nlinarith [c1, c2, c3, hd2, hrr]

theorem C9_infeasible_packing_witness :
    generate_random_pores 100 (0, 10) (0, 10) (0, 10) 4 5 10 none (fun _ _ => 0)
      ⟨fun _ => 0, 0⟩ = none :=
  C9_infeasible_packing none (fun _ _ => 0) ⟨fun _ => 0, 0⟩
    (fun k => by norm_num [initGen])
